import Mathlib

/-!
# turnc multiplexer: read-classify-route loop

A shallow embedding of `multiplexer.go` (package `turnc`).  The loop
`readUntilClosed` performs I/O on a transport connection, three remote pipe
endpoints, a side-channel pipe writer and a logger.  The embedding makes every
such call an `Event` of a trace; the answers of the outside world (what the
transport read returned, whether an endpoint write or close failed, what the
two library predicates `stun.IsMessage` and `turn.IsChannelData` say) are
supplied by a `World` record and a script of read results.

Every I/O call is taken to return: a call that blocks forever (an unread
synchronous pipe) is outside the model.
-/

namespace Turnc

/-- One octet of the wire. -/
abbrev Byte := Fin 256

/-- A Go byte slice `[]byte`, by value. -/
abbrev Bytes := List Byte

/-- The Go `error` values the code and its tests distinguish; `nil` is
`Option.none` at every use. -/
inductive GoError where
  | EOF
  | ErrUnexpectedEOF
  | ErrClosedPipe
  | other (msg : String)
  deriving DecidableEq, Repr

/-- Levels of the zap logger used by the file. -/
inductive Level where
  | Debug
  | Info
  | Warn
  | Error
  deriving DecidableEq, Repr

/-- One call of the logger: level, message, and the two structured fields the
file ever attaches (`zap.Int "n"` and `zap.Error`). -/
structure LogEntry where
  level : Level
  msg : String
  n : Option Nat
  err : Option GoError
  deriving DecidableEq, Repr

/-- The three remote pipe endpoints of the multiplexer struct. -/
inductive Endpoint where
  | stunR
  | turnR
  | dataR
  deriving DecidableEq, Repr

/-- Result of one `Read(buf)` call: `data` is `buf[:n]` after the call (so
`n = data.length`), `err` is the returned error. -/
structure ReadResult where
  data : Bytes
  err : Option GoError
  deriving DecidableEq, Repr

/-- An `io.Closer`: which endpoint it is and what its `Close` returns. -/
structure Closer where
  conn : Endpoint
  result : Option GoError
  deriving DecidableEq, Repr

/-- The I/O calls made by the code, in program order. -/
inductive Event where
  | connRead (n : Nat) (err : Option GoError)
  | log (e : LogEntry)
  | sideChanWrite (data : Bytes)
  | write (conn : Endpoint) (data : Bytes) (err : Option GoError)
  | close (conn : Endpoint) (err : Option GoError)
  deriving DecidableEq, Repr

/-- Loop state: still reading, or left through `break`. -/
inductive State where
  | Running
  | Closed
  deriving DecidableEq, Repr

/-- What the collaborators answer.  `IsMessage` and `IsChannelData` stand for
the library predicates `stun.IsMessage` and `turn.IsChannelData`;
`writeErr k conn data` is the error returned by `conn.Write(data)` in loop
iteration `k`; `closeErr conn` is the error returned by `conn.Close()`. -/
structure World where
  IsMessage : Bytes → Bool
  IsChannelData : Bytes → Bool
  writeErr : Nat → Endpoint → Bytes → Option GoError
  closeErr : Endpoint → Option GoError

/-! ## The logged helpers -/

/-- Go `closeLogged(l, msg, conn)`: call `conn.Close()`, log at Error level
when it fails. -/
def closeLogged (msg : String) (conn : Closer) : List Event :=
  Event.close conn.conn conn.result ::
    (match conn.result with
     | some closeErr => [Event.log ⟨Level.Error, msg, none, some closeErr⟩]
     | none => [])

/-- Go `io.Copy(ioutil.Discard, r)` over the successive results of `r.Read`:
returns the byte count and the error, where end-of-stream is reported as
`nil`.  `none` when the reader never returns an error within the script (the
copy is still draining). -/
def ioCopyDiscard : List ReadResult → Option (Nat × Option GoError)
  | [] => none
  | r :: rs =>
    match r.err with
    | some e => some (r.data.length, if e = GoError.EOF then none else some e)
    | none => (ioCopyDiscard rs).map (fun p => (r.data.length + p.1, p.2))

/-- Go `discardLogged(l, msg, r)`: drain `r`, log at Error level when the
copy reports an error.  Only the logger calls are recorded. -/
def discardLogged (msg : String) (r : List ReadResult) : Option (List Event) :=
  (ioCopyDiscard r).map (fun p =>
    match p.2 with
    | some err => [Event.log ⟨Level.Error, msg, none, some err⟩]
    | none => [])

/-! ## The multiplexer -/

/-- Go `(*multiplexer).close`: the three endpoints, in source order. -/
def close (w : World) : List Event :=
  closeLogged "mux: failed to close turnR: %v" ⟨Endpoint.turnR, w.closeErr Endpoint.turnR⟩ ++
  closeLogged "mux: failed to close stunR: %v" ⟨Endpoint.stunR, w.closeErr Endpoint.stunR⟩ ++
  closeLogged "mux: failed to close dataR: %v" ⟨Endpoint.dataR, w.closeErr Endpoint.dataR⟩

/-- The `switch` of the loop body: the chosen endpoint (initially `dataR`) and
the calls made inside the selected case, in source order. -/
def route (w : World) (data : Bytes) : Endpoint × List Event :=
  if w.IsMessage data then
    (Endpoint.stunR, [Event.log ⟨Level.Debug, "mux: got STUN data", none, none⟩])
  else if w.IsChannelData data then
    (Endpoint.turnR,
      [Event.log ⟨Level.Debug, "mux: got TURN data", none, none⟩, Event.sideChanWrite data])
  else
    (Endpoint.dataR,
      [Event.sideChanWrite data, Event.log ⟨Level.Debug, "mux: got APP data", none, none⟩])

/-- One pass through the body of the `for` loop of `readUntilClosed`, for the
read result `r` of iteration `k`: the calls made and whether the loop goes on
(`Running`) or has left through `break` (`Closed`). -/
def iteration (w : World) (k : Nat) (r : ReadResult) : List Event × State :=
  let n := r.data.length
  let head := [Event.connRead n r.err, Event.log ⟨Level.Debug, "mux: read", some n, r.err⟩]
  match r.err with
  | some _ =>
    (head ++ Event.log ⟨Level.Info, "connection closed", none, none⟩ :: close w, State.Closed)
  | none =>
    let data := r.data
    let sel := route w data
    let err := w.writeErr k sel.1 data
    (head ++ sel.2 ++ Event.write sel.1 data err ::
      (match err with
       | some e => [Event.log ⟨Level.Warn, "failed to write", none, some e⟩]
       | none => []),
     State.Running)

/-- Go `(*multiplexer).readUntilClosed` run against the successive results of
`m.conn.Read`, starting at iteration `k`.  When the script is used up without
a read error the loop is `Running`, waiting in the next `Read`. -/
def readUntilClosed (w : World) : Nat → List ReadResult → List Event × State
  | _, [] => ([], State.Running)
  | k, r :: rs =>
    match iteration w k r with
    | (evs, State.Closed) => (evs, State.Closed)
    | (evs, State.Running) =>
      let rest := readUntilClosed w (k + 1) rs
      (evs ++ rest.1, rest.2)

/-! ## Observations on a trace -/

/-- The endpoint writes of a trace: destination and bytes, in order. -/
def writes (t : List Event) : List (Endpoint × Bytes) :=
  t.filterMap (fun e => match e with
    | Event.write c d _ => some (c, d)
    | _ => none)

/-- The side-channel writes of a trace, in order. -/
def sideWrites (t : List Event) : List Bytes :=
  t.filterMap (fun e => match e with
    | Event.sideChanWrite d => some d
    | _ => none)

/-- The endpoints on which `Close` was called, in order. -/
def closes (t : List Event) : List Endpoint :=
  t.filterMap (fun e => match e with
    | Event.close c _ => some c
    | _ => none)

/-- The transport reads of a trace. -/
def reads (t : List Event) : List (Nat × Option GoError) :=
  t.filterMap (fun e => match e with
    | Event.connRead n err => some (n, err)
    | _ => none)

/-- The log entries of a trace, in order. -/
def logs (t : List Event) : List LogEntry :=
  t.filterMap (fun e => match e with
    | Event.log l => some l
    | _ => none)

/-- The log entries of a trace at one level. -/
def logsAt (lv : Level) (t : List Event) : List LogEntry :=
  (logs t).filter (fun l => l.level = lv)

/-- The bytes that reached endpoint `c`: the data of the writes to `c` that
returned no error, concatenated in order. -/
def delivered (c : Endpoint) (t : List Event) : Bytes :=
  (t.filterMap (fun e => match e with
    | Event.write c' d none => if c' = c then some d else none
    | _ => none)).flatten

/-- The endpoint the `switch` selects for a chunk. -/
def classify (w : World) (data : Bytes) : Endpoint :=
  (route w data).1

/-- A successful read of `data`. -/
def ok (data : Bytes) : ReadResult :=
  ⟨data, none⟩

/-! ## The classifier of the specification

The two predicates `stun.IsMessage` and `turn.IsChannelData` live in the
libraries `gortc.io/stun` and `gortc.io/turn`, whose sources are not part of
this repository.  The definitions below follow the wording of the
specification (section 4.1).  Indexing is checked: a field read outside the
chunk yields `none`, which stands for the run-time failure of an
out-of-bounds index. -/

/-- The three payload kinds of the specification. -/
inductive Kind where
  | Control
  | FramedRelay
  | Application
  deriving DecidableEq, Repr

/-- The remote endpoint that serves a kind. -/
def Kind.endpoint : Kind → Endpoint
  | Kind.Control => Endpoint.stunR
  | Kind.FramedRelay => Endpoint.turnR
  | Kind.Application => Endpoint.dataR

/-- Size of the fixed header of a control message (wire format of the control
protocol). -/
def messageHeaderSize : Nat := 20

/-- The magic cookie of a control message, stored at byte offset 4. -/
def magicCookie : Nat := 0x2112A442

/-- Size of the framed-relay header: channel number and length, two bytes
each. -/
def channelDataHeaderSize : Nat := 4

/-- Big-endian 16-bit field at offset `i`; `none` when it does not lie inside
the chunk. -/
def uint16At (b : Bytes) (i : Nat) : Option Nat :=
  match b[i]?, b[i + 1]? with
  | some hi, some lo => some (hi.val * 256 + lo.val)
  | _, _ => none

/-- Big-endian 32-bit field at offset `i`; `none` when it does not lie inside
the chunk. -/
def uint32At (b : Bytes) (i : Nat) : Option Nat :=
  match uint16At b i, uint16At b (i + 2) with
  | some hi, some lo => some (hi * 65536 + lo)
  | _, _ => none

/-- Modelled from the spec: the Control predicate, whose implementation
`stun.IsMessage` is library code outside the repository.  Section 4.1: the
chunk has the length of a message header, carries the magic cookie at its
fixed offset, and its message-type field lies in the range of message classes
(the two leading bits are zero). -/
def isControl (b : Bytes) : Option Bool :=
  if b.length < messageHeaderSize then some false
  else
    match uint16At b 0, uint32At b 4 with
    | some ty, some cookie => some (cookie == magicCookie && ty / 0x4000 == 0)
    | _, _ => none

/-- Modelled from the spec: the FramedRelay predicate, whose implementation
`turn.IsChannelData` is library code outside the repository.  Section 4.1: the
chunk is at least a frame header long and begins with a two-byte channel
number whose two leading bits are the channel-data pattern `01`, followed by a
two-byte length field. -/
def isFramedRelay (b : Bytes) : Option Bool :=
  if b.length < channelDataHeaderSize then some false
  else
    match uint16At b 0, uint16At b 2 with
    | some num, some _ => some (num / 0x4000 == 1)
    | _, _ => none

/-- Modelled from the spec: `Classify` of section 4.1, Control checked before
FramedRelay before the Application fallback.  `none` stands for a failed
(out-of-bounds) header read. -/
def Classify (b : Bytes) : Option Kind :=
  match isControl b with
  | none => none
  | some true => some Kind.Control
  | some false =>
    match isFramedRelay b with
    | none => none
    | some true => some Kind.FramedRelay
    | some false => some Kind.Application

/-- The world in which the two library predicates are the ones of the
specification. -/
def specWorld (writeErr : Nat → Endpoint → Bytes → Option GoError)
    (closeErr : Endpoint → Option GoError) : World :=
  ⟨fun b => isControl b == some true, fun b => isFramedRelay b == some true, writeErr, closeErr⟩

/-- A world where no write and no close fails. -/
def quietWorld : World :=
  specWorld (fun _ _ _ => none) (fun _ => none)

/-- A world where the Application endpoint has been closed by its consumer:
writes to `dataR` fail with `io.ErrClosedPipe`. -/
def dataClosedWorld : World :=
  specWorld (fun _ c _ => if c = Endpoint.dataR then some GoError.ErrClosedPipe else none)
    (fun _ => none)

/-- The trace with the outcomes of endpoint writes forgotten: the result of
each write is erased and the warnings are dropped.  What remains is what was
read, where each chunk went, and every other call, in order. -/
def routing (t : List Event) : List Event :=
  t.filterMap (fun e => match e with
    | Event.write c d _ => some (Event.write c d none)
    | Event.log l => if l.level = Level.Warn then none else some (Event.log l)
    | e => some e)

/-- The world `w` with another answer to endpoint writes. -/
def World.withWrites (w : World) (f : Nat → Endpoint → Bytes → Option GoError) : World :=
  ⟨w.IsMessage, w.IsChannelData, f, w.closeErr⟩

/-- The world `w` with other library predicates. -/
def World.withPredicates (w : World) (p q : Bytes → Bool) : World :=
  ⟨p, q, w.writeErr, w.closeErr⟩

/-- A Control predicate that looks at the length and the magic cookie only. -/
def cookieOnly (b : Bytes) : Bool :=
  decide (messageHeaderSize ≤ b.length) && uint32At b 4 == some magicCookie

/-- A world whose Control predicate is `cookieOnly` and whose FramedRelay
predicate is the one of the specification: some chunks satisfy both. -/
def cookieWorld : World :=
  ⟨cookieOnly, fun b => isFramedRelay b == some true, fun _ _ _ => none, fun _ => none⟩

/-- A 20-byte chunk that carries the magic cookie and begins like a channel
data frame (channel `0x4000`, length 16). -/
def ambiguousChunk : Bytes :=
  [0x40, 0x00, 0x00, 0x10, 0x21, 0x12, 0xA4, 0x42,
   0, 0, 0, 0, 0, 0, 0, 0, 0, 0, 0, 0]

/-- A 20-byte control message header: message type `0x0001`, length 0, the
magic cookie, and a zero transaction id. -/
def controlChunk : Bytes :=
  [0x00, 0x01, 0x00, 0x00, 0x21, 0x12, 0xA4, 0x42,
   0, 0, 0, 0, 0, 0, 0, 0, 0, 0, 0, 0]

/-! ## Basic facts -/

section Lemmas

variable (w : World) (k : Nat)

@[simp] theorem writes_nil : writes [] = [] := rfl

@[simp] theorem writes_append (s t : List Event) : writes (s ++ t) = writes s ++ writes t := by
  simp [writes]

@[simp] theorem sideWrites_nil : sideWrites [] = [] := rfl

@[simp] theorem sideWrites_append (s t : List Event) :
    sideWrites (s ++ t) = sideWrites s ++ sideWrites t := by
  simp [sideWrites]

@[simp] theorem closes_nil : closes [] = [] := rfl

@[simp] theorem closes_append (s t : List Event) : closes (s ++ t) = closes s ++ closes t := by
  simp [closes]

@[simp] theorem reads_nil : reads [] = [] := rfl

@[simp] theorem reads_append (s t : List Event) : reads (s ++ t) = reads s ++ reads t := by
  simp [reads]

@[simp] theorem logs_nil : logs [] = [] := rfl

@[simp] theorem logs_append (s t : List Event) : logs (s ++ t) = logs s ++ logs t := by
  simp [logs]

@[simp] theorem logsAt_nil (lv : Level) : logsAt lv [] = [] := rfl

@[simp] theorem logsAt_append (lv : Level) (s t : List Event) :
    logsAt lv (s ++ t) = logsAt lv s ++ logsAt lv t := by
  simp [logsAt]

@[simp] theorem delivered_nil (c : Endpoint) : delivered c [] = [] := rfl

@[simp] theorem delivered_append (c : Endpoint) (s t : List Event) :
    delivered c (s ++ t) = delivered c s ++ delivered c t := by
  simp [delivered]

@[simp] theorem routing_nil : routing [] = [] := rfl

@[simp] theorem routing_append (s t : List Event) : routing (s ++ t) = routing s ++ routing t := by
  simp [routing]

theorem classify_eq (data : Bytes) :
    classify w data =
      if w.IsMessage data then Endpoint.stunR
      else if w.IsChannelData data then Endpoint.turnR else Endpoint.dataR := by
  unfold classify route
  split
  · rfl
  · split <;> rfl

theorem readUntilClosed_ok_cons (data : Bytes) (rs : List ReadResult) :
    readUntilClosed w k (ok data :: rs) =
      ((iteration w k (ok data)).1 ++ (readUntilClosed w (k + 1) rs).1,
        (readUntilClosed w (k + 1) rs).2) := by
  simp [readUntilClosed, iteration, ok]

theorem readUntilClosed_err_cons (data : Bytes) (e : GoError) (rs : List ReadResult) :
    readUntilClosed w k (⟨data, some e⟩ :: rs) =
      ((iteration w k ⟨data, some e⟩).1, State.Closed) := by
  simp [readUntilClosed, iteration]

theorem readUntilClosed_ok_append (pre : List Bytes) (tl : List ReadResult) :
    readUntilClosed w k (pre.map ok ++ tl) =
      ((readUntilClosed w k (pre.map ok)).1 ++ (readUntilClosed w (k + pre.length) tl).1,
        (readUntilClosed w (k + pre.length) tl).2) := by
  induction pre generalizing k with
  | nil => simp [readUntilClosed]
  | cons d ds ih =>
    simp only [List.map_cons, List.cons_append, readUntilClosed_ok_cons, ih, List.length_cons,
      List.append_assoc]
    have : k + 1 + ds.length = k + (ds.length + 1) := by omega
    rw [this]

theorem readUntilClosed_ok_state (pre : List Bytes) :
    (readUntilClosed w k (pre.map ok)).2 = State.Running := by
  induction pre generalizing k with
  | nil => rfl
  | cons d ds ih => simp [readUntilClosed_ok_cons, ih]

theorem iteration_ok_fst (data : Bytes) :
    (iteration w k (ok data)).1 =
      [Event.connRead data.length none,
        Event.log ⟨Level.Debug, "mux: read", some data.length, none⟩] ++ (route w data).2 ++
      Event.write (classify w data) data (w.writeErr k (classify w data) data) ::
        (match w.writeErr k (classify w data) data with
         | some e => [Event.log ⟨Level.Warn, "failed to write", none, some e⟩]
         | none => []) := by
  simp [iteration, ok, classify]

theorem iteration_ok_snd (data : Bytes) : (iteration w k (ok data)).2 = State.Running := by
  simp [iteration, ok]

theorem iteration_err_fst (data : Bytes) (e : GoError) :
    (iteration w k ⟨data, some e⟩).1 =
      [Event.connRead data.length (some e),
        Event.log ⟨Level.Debug, "mux: read", some data.length, some e⟩,
        Event.log ⟨Level.Info, "connection closed", none, none⟩] ++ close w := by
  simp [iteration]

theorem iteration_ok_writes (data : Bytes) :
    writes (iteration w k (ok data)).1 = [(classify w data, data)] := by
  rw [iteration_ok_fst]
  unfold route
  split
  · split <;> simp [writes]
  · split <;> split <;> simp [writes]

theorem iteration_ok_sideWrites (data : Bytes) :
    sideWrites (iteration w k (ok data)).1 = if w.IsMessage data then [] else [data] := by
  rw [iteration_ok_fst]
  unfold route
  split
  · split <;> simp [sideWrites]
  · split <;> split <;> simp [sideWrites]

theorem iteration_ok_closes (data : Bytes) : closes (iteration w k (ok data)).1 = [] := by
  rw [iteration_ok_fst]
  unfold route
  split
  · split <;> simp [closes]
  · split <;> split <;> simp [closes]

theorem iteration_ok_reads (data : Bytes) :
    reads (iteration w k (ok data)).1 = [(data.length, none)] := by
  rw [iteration_ok_fst]
  unfold route
  split
  · split <;> simp [reads]
  · split <;> split <;> simp [reads]

theorem iteration_ok_logsAt_error (data : Bytes) :
    logsAt Level.Error (iteration w k (ok data)).1 = [] := by
  rw [iteration_ok_fst]
  unfold route
  split
  · split <;> simp [logsAt, logs]
  · split <;> split <;> simp [logsAt, logs]

theorem iteration_ok_logsAt_info (data : Bytes) :
    logsAt Level.Info (iteration w k (ok data)).1 = [] := by
  rw [iteration_ok_fst]
  unfold route
  split
  · split <;> simp [logsAt, logs]
  · split <;> split <;> simp [logsAt, logs]

theorem iteration_ok_logsAt_warn (data : Bytes) :
    logsAt Level.Warn (iteration w k (ok data)).1 =
      match w.writeErr k (classify w data) data with
      | some e => [⟨Level.Warn, "failed to write", none, some e⟩]
      | none => [] := by
  rw [iteration_ok_fst]
  unfold route
  split
  · split <;> simp [logsAt, logs]
  · split <;> split <;> simp [logsAt, logs]

theorem iteration_ok_delivered (c : Endpoint) (data : Bytes)
    (h : w.writeErr k (classify w data) data = none) :
    delivered c (iteration w k (ok data)).1 = if classify w data = c then data else [] := by
  rw [iteration_ok_fst, h]
  unfold route
  split
  · by_cases hc : classify w data = c <;> simp [delivered, hc]
  · split <;> by_cases hc : classify w data = c <;> simp [delivered, hc]

theorem routing_write (c : Endpoint) (data : Bytes) (x : Option GoError) :
    routing (Event.write c data x ::
      (match x with
       | some e => [Event.log ⟨Level.Warn, "failed to write", none, some e⟩]
       | none => [])) = [Event.write c data none] := by
  cases x <;> simp [routing]

theorem iteration_ok_routing (data : Bytes) (f g : Nat → Endpoint → Bytes → Option GoError) :
    routing (iteration (w.withWrites f) k (ok data)).1 =
      routing (iteration (w.withWrites g) k (ok data)).1 := by
  rw [iteration_ok_fst, iteration_ok_fst]
  have hc : classify (w.withWrites f) data = classify (w.withWrites g) data := rfl
  have hr : route (w.withWrites f) data = route (w.withWrites g) data := rfl
  rw [hc, hr]
  simp only [routing_append, routing_write]

theorem close_closes : closes (close w) = [Endpoint.turnR, Endpoint.stunR, Endpoint.dataR] := by
  unfold close closeLogged
  cases w.closeErr Endpoint.turnR <;> cases w.closeErr Endpoint.stunR <;>
    cases w.closeErr Endpoint.dataR <;> simp [closes]

theorem close_writes : writes (close w) = [] ∧ sideWrites (close w) = [] ∧ reads (close w) = [] := by
  unfold close closeLogged
  cases w.closeErr Endpoint.turnR <;> cases w.closeErr Endpoint.stunR <;>
    cases w.closeErr Endpoint.dataR <;> simp [writes, sideWrites, reads]

theorem close_logsAt_info : logsAt Level.Info (close w) = [] := by
  unfold close closeLogged
  cases w.closeErr Endpoint.turnR <;> cases w.closeErr Endpoint.stunR <;>
    cases w.closeErr Endpoint.dataR <;> simp [logsAt, logs]

theorem close_logsAt_error (hc : ∀ c, w.closeErr c = none) : logsAt Level.Error (close w) = [] := by
  unfold close closeLogged
  simp [hc, logsAt, logs]

theorem close_delivered (c : Endpoint) : delivered c (close w) = [] := by
  unfold close closeLogged
  cases w.closeErr Endpoint.turnR <;> cases w.closeErr Endpoint.stunR <;>
    cases w.closeErr Endpoint.dataR <;> simp [delivered]

theorem run_ok_writes (pre : List Bytes) :
    writes (readUntilClosed w k (pre.map ok)).1 = pre.map (fun d => (classify w d, d)) := by
  induction pre generalizing k with
  | nil => rfl
  | cons d ds ih => simp [readUntilClosed_ok_cons, iteration_ok_writes, ih]

theorem run_ok_sideWrites (pre : List Bytes) :
    sideWrites (readUntilClosed w k (pre.map ok)).1 = pre.filter (fun d => !w.IsMessage d) := by
  induction pre generalizing k with
  | nil => rfl
  | cons d ds ih =>
    cases h : w.IsMessage d <;>
      simp [readUntilClosed_ok_cons, iteration_ok_sideWrites, ih, h]

theorem run_ok_closes (pre : List Bytes) : closes (readUntilClosed w k (pre.map ok)).1 = [] := by
  induction pre generalizing k with
  | nil => rfl
  | cons d ds ih => simp [readUntilClosed_ok_cons, iteration_ok_closes, ih]

theorem run_ok_logsAt_info (pre : List Bytes) :
    logsAt Level.Info (readUntilClosed w k (pre.map ok)).1 = [] := by
  induction pre generalizing k with
  | nil => rfl
  | cons d ds ih => simp [readUntilClosed_ok_cons, iteration_ok_logsAt_info, ih]

theorem run_ok_delivered (c : Endpoint) (pre : List Bytes)
    (hw : ∀ i conn d, w.writeErr i conn d = none) :
    delivered c (readUntilClosed w k (pre.map ok)).1 =
      (pre.filter (fun d => classify w d = c)).flatten := by
  induction pre generalizing k with
  | nil => rfl
  | cons d ds ih =>
    by_cases h : classify w d = c <;>
      simp [readUntilClosed_ok_cons, iteration_ok_delivered, hw, ih, h]

theorem run_logsAt_error (rs : List ReadResult) (hc : ∀ c, w.closeErr c = none) :
    logsAt Level.Error (readUntilClosed w k rs).1 = [] := by
  induction rs generalizing k with
  | nil => rfl
  | cons r rs ih =>
    obtain ⟨data, err⟩ := r
    cases err with
    | none =>
      have h := readUntilClosed_ok_cons w k data rs
      simp only [ok] at h
      simp only [h, logsAt_append, ih, List.append_nil]
      exact iteration_ok_logsAt_error w k data
    | some e =>
      rw [readUntilClosed_err_cons, iteration_err_fst]
      simp only [logsAt_append, close_logsAt_error w hc, List.append_nil]
      simp [logsAt, logs]

theorem run_routing (rs : List ReadResult) (f g : Nat → Endpoint → Bytes → Option GoError) :
    routing (readUntilClosed (w.withWrites f) k rs).1 =
        routing (readUntilClosed (w.withWrites g) k rs).1 ∧
      (readUntilClosed (w.withWrites f) k rs).2 = (readUntilClosed (w.withWrites g) k rs).2 := by
  induction rs generalizing k with
  | nil => exact ⟨rfl, rfl⟩
  | cons r rs ih =>
    obtain ⟨data, err⟩ := r
    cases err with
    | none =>
      have hf := readUntilClosed_ok_cons (w.withWrites f) k data rs
      have hg := readUntilClosed_ok_cons (w.withWrites g) k data rs
      simp only [ok] at hf hg
      rw [hf, hg]
      refine ⟨?_, (ih (k + 1)).2⟩
      simp only [routing_append, (ih (k + 1)).1]
      rw [show (⟨data, none⟩ : ReadResult) = ok data from rfl, iteration_ok_routing w k data f g]
    | some e =>
      rw [readUntilClosed_err_cons, readUntilClosed_err_cons, iteration_err_fst, iteration_err_fst]
      exact ⟨rfl, rfl⟩

end Lemmas

theorem ioCopyDiscard_ok_cons (data : Bytes) (rs : List ReadResult) :
    ioCopyDiscard (ok data :: rs) =
      (ioCopyDiscard rs).map (fun p => (data.length + p.1, p.2)) := rfl

/-! ## Facts about the classifier of the specification -/

theorem uint16At_inside (b : Bytes) (i : Nat) (h : i + 1 < b.length) :
    ∃ v, uint16At b i = some v := by
  unfold uint16At
  rw [List.getElem?_eq_getElem (by omega : i < b.length), List.getElem?_eq_getElem h]
  exact ⟨_, rfl⟩

theorem uint32At_inside (b : Bytes) (i : Nat) (h : i + 3 < b.length) :
    ∃ v, uint32At b i = some v := by
  obtain ⟨hi, hhi⟩ := uint16At_inside b i (by omega)
  obtain ⟨lo, hlo⟩ := uint16At_inside b (i + 2) (by omega)
  exact ⟨hi * 65536 + lo, by simp [uint32At, hhi, hlo]⟩

theorem isControl_total (b : Bytes) : ∃ r, isControl b = some r := by
  unfold isControl
  split
  · exact ⟨false, rfl⟩
  · rename_i h
    simp only [messageHeaderSize, Nat.not_lt] at h
    obtain ⟨ty, hty⟩ := uint16At_inside b 0 (by omega)
    obtain ⟨ck, hck⟩ := uint32At_inside b 4 (by omega)
    exact ⟨_, by rw [hty, hck]⟩

theorem isFramedRelay_total (b : Bytes) : ∃ r, isFramedRelay b = some r := by
  unfold isFramedRelay
  split
  · exact ⟨false, rfl⟩
  · rename_i h
    simp only [channelDataHeaderSize, Nat.not_lt] at h
    obtain ⟨num, hnum⟩ := uint16At_inside b 0 (by omega)
    obtain ⟨len, hlen⟩ := uint16At_inside b 2 (by omega)
    exact ⟨_, by rw [hnum, hlen]⟩

theorem Classify_spec (b : Bytes) (we : Nat → Endpoint → Bytes → Option GoError)
    (ce : Endpoint → Option GoError) :
    ∃ kind, Classify b = some kind ∧ classify (specWorld we ce) b = kind.endpoint := by
  obtain ⟨c, hc⟩ := isControl_total b
  obtain ⟨f, hf⟩ := isFramedRelay_total b
  rw [classify_eq]
  cases c <;> cases f <;> simp [Classify, specWorld, hc, hf, Kind.endpoint]

theorem isControl_short (b : Bytes) (h : b.length < 20) : isControl b = some false := by
  simp [isControl, messageHeaderSize, h]

theorem isFramedRelay_short (b : Bytes) (h : b.length < 4) : isFramedRelay b = some false := by
  simp [isFramedRelay, channelDataHeaderSize, h]

/-! ## The claims -/

/-- C1: for a chunk obtained from a successful transport read, one iteration
of `readUntilClosed` makes exactly one endpoint write, of that chunk unchanged:
to `stunR` when `stun.IsMessage` holds, to `turnR` when it does not and
`turn.IsChannelData` holds, to `dataR` otherwise.  With the predicates of the
specification the chunk `1,2,3,4` goes to `dataR` only. -/
theorem iteration_writes_chunk_to_one_endpoint (w : World) (k : Nat) (data : Bytes) :
    writes (iteration w k (ok data)).1 =
        [(if w.IsMessage data then Endpoint.stunR
          else if w.IsChannelData data then Endpoint.turnR else Endpoint.dataR, data)] ∧
      writes (iteration quietWorld 0 (ok [1, 2, 3, 4])).1 = [(Endpoint.dataR, [1, 2, 3, 4])] := by
  refine ⟨?_, by decide⟩
  rw [iteration_ok_writes, classify_eq]

/-- C2: for chunks read successfully and then a read error, when every
endpoint write succeeds, the bytes delivered to each endpoint are the
concatenation, in transport order, of exactly the chunks the switch selects
for that endpoint. -/
theorem delivered_is_concat_of_kind (w : World) (k : Nat) (chunks : List Bytes) (last : Bytes)
    (e : GoError) (c : Endpoint) (hw : ∀ i conn d, w.writeErr i conn d = none) :
    delivered c (readUntilClosed w k (chunks.map ok ++ [⟨last, some e⟩])).1 =
      (chunks.filter (fun d => classify w d = c)).flatten := by
  rw [readUntilClosed_ok_append, readUntilClosed_err_cons, iteration_err_fst]
  simp only [delivered_append, run_ok_delivered w k c chunks hw, close_delivered]
  simp [delivered]

/-- Witness of C2: an Application chunk, a FramedRelay chunk and a second
Application chunk, then end of stream. -/
theorem delivered_is_concat_of_kind_witness :
    (∀ i conn d, quietWorld.writeErr i conn d = none) ∧
      delivered Endpoint.dataR
          (readUntilClosed quietWorld 0
            ([[1, 2, 3, 4], [0x40, 0, 0, 0], [5, 6]].map ok ++ [⟨[9], some GoError.EOF⟩])).1 =
        [1, 2, 3, 4, 5, 6] :=
  ⟨fun _ _ _ => rfl,
    (delivered_is_concat_of_kind quietWorld 0 [[1, 2, 3, 4], [0x40, 0, 0, 0], [5, 6]] [9]
      GoError.EOF Endpoint.dataR (fun _ _ _ => rfl)).trans (by decide)⟩

/-- C3: on the first transport read that returns an error, after any number
of successful reads, `readUntilClosed` logs the read, logs one Info entry,
calls `Close` on `turnR`, `stunR` and `dataR` once each whatever the closes
return, and stops: the run is `Closed`, its trace does not depend on the reads
that would follow, and the last iteration makes no endpoint write, no
side-channel write and no second read.  Before that read the loop is `Running`
and no endpoint has been closed. -/
theorem read_error_closes_and_terminates (w : World) (k : Nat) (pre : List Bytes) (d : Bytes)
    (e : GoError) (rest : List ReadResult) :
    readUntilClosed w k (pre.map ok ++ ⟨d, some e⟩ :: rest) =
        ((readUntilClosed w k (pre.map ok)).1 ++ (iteration w (k + pre.length) ⟨d, some e⟩).1,
          State.Closed) ∧
      (readUntilClosed w k (pre.map ok)).2 = State.Running ∧
      closes (readUntilClosed w k (pre.map ok)).1 = [] ∧
      logsAt Level.Info (readUntilClosed w k (pre.map ok)).1 = [] ∧
      (iteration w (k + pre.length) ⟨d, some e⟩).1 =
        [Event.connRead d.length (some e),
          Event.log ⟨Level.Debug, "mux: read", some d.length, some e⟩,
          Event.log ⟨Level.Info, "connection closed", none, none⟩] ++ close w ∧
      logsAt Level.Info (iteration w (k + pre.length) ⟨d, some e⟩).1 =
        [⟨Level.Info, "connection closed", none, none⟩] ∧
      closes (iteration w (k + pre.length) ⟨d, some e⟩).1 =
        [Endpoint.turnR, Endpoint.stunR, Endpoint.dataR] ∧
      reads (iteration w (k + pre.length) ⟨d, some e⟩).1 = [(d.length, some e)] ∧
      writes (iteration w (k + pre.length) ⟨d, some e⟩).1 = [] ∧
      sideWrites (iteration w (k + pre.length) ⟨d, some e⟩).1 = [] := by
  refine ⟨?_, readUntilClosed_ok_state w k pre, run_ok_closes w k pre,
    run_ok_logsAt_info w k pre, iteration_err_fst w _ d e, ?_, ?_, ?_, ?_, ?_⟩
  · rw [readUntilClosed_ok_append, readUntilClosed_err_cons]
  · rw [iteration_err_fst, logsAt_append, close_logsAt_info]
    simp [logsAt, logs]
  · rw [iteration_err_fst, closes_append, close_closes]
    simp [closes]
  · rw [iteration_err_fst, reads_append, (close_writes w).2.2]
    simp [reads]
  · rw [iteration_err_fst, writes_append, (close_writes w).1]
    simp [writes]
  · rw [iteration_err_fst, sideWrites_append, (close_writes w).2.1]
    simp [sideWrites]

/-- C4: when the endpoint write of a chunk returns an error, the iteration
logs exactly one Warn entry, closes nothing and leaves the loop `Running`, so
the run goes on with the next read; and what is read, where every chunk is
routed and whether the loop ends are the same as under any other outcome of
the endpoint writes, all of them succeeding included.  With `dataR` closed, the chunk `1,2,3,4` yields a Warn entry and the loop
stays `Running`. -/
theorem write_error_warns_and_continues (w : World) (k : Nat) (data : Bytes) (e : GoError)
    (rs : List ReadResult) (h : w.writeErr k (classify w data) data = some e) :
    logsAt Level.Warn (iteration w k (ok data)).1 =
        [⟨Level.Warn, "failed to write", none, some e⟩] ∧
      closes (iteration w k (ok data)).1 = [] ∧
      (iteration w k (ok data)).2 = State.Running ∧
      readUntilClosed w k (ok data :: rs) =
        ((iteration w k (ok data)).1 ++ (readUntilClosed w (k + 1) rs).1,
          (readUntilClosed w (k + 1) rs).2) ∧
      (∀ g : Nat → Endpoint → Bytes → Option GoError,
        routing (readUntilClosed w k (ok data :: rs)).1 =
            routing (readUntilClosed (w.withWrites g) k (ok data :: rs)).1 ∧
          (readUntilClosed w k (ok data :: rs)).2 =
            (readUntilClosed (w.withWrites g) k (ok data :: rs)).2) ∧
      1 ≤ (logsAt Level.Warn (readUntilClosed dataClosedWorld 0 [ok [1, 2, 3, 4]]).1).length ∧
      (readUntilClosed dataClosedWorld 0 [ok [1, 2, 3, 4]]).2 = State.Running := by
  refine ⟨?_, iteration_ok_closes w k data, iteration_ok_snd w k data,
    readUntilClosed_ok_cons w k data rs, fun g => run_routing w k _ w.writeErr g, by decide,
    by decide⟩
  rw [iteration_ok_logsAt_warn, h]

/-- Witness of C4: the Application endpoint is closed and an unclassifiable
chunk arrives, followed by a FramedRelay chunk. -/
theorem write_error_warns_and_continues_witness :
    dataClosedWorld.writeErr 0 (classify dataClosedWorld [1, 2, 3, 4]) [1, 2, 3, 4] =
        some GoError.ErrClosedPipe ∧
      logsAt Level.Warn (iteration dataClosedWorld 0 (ok [1, 2, 3, 4])).1 =
        [⟨Level.Warn, "failed to write", none, some GoError.ErrClosedPipe⟩] ∧
      writes (readUntilClosed dataClosedWorld 0 [ok [1, 2, 3, 4], ok [0x40, 0, 0, 0]]).1 =
        [(Endpoint.dataR, [1, 2, 3, 4]), (Endpoint.turnR, [0x40, 0, 0, 0])] :=
  ⟨by decide,
    (write_error_warns_and_continues dataClosedWorld 0 [1, 2, 3, 4] GoError.ErrClosedPipe
      [ok [0x40, 0, 0, 0]] (by decide)).1,
    by decide⟩

/-- C5: for successfully read chunks, the side-channel writes are exactly the
chunks that `stun.IsMessage` rejects, that is the chunks routed to `turnR`
(FramedRelay) or `dataR` (Application), in transport order, each once and
unchanged.  One iteration writes its chunk to the side channel once when
`stun.IsMessage` rejects it and not at all when it accepts it.  With the
predicates of the specification, of a Control chunk, a FramedRelay chunk and an
Application chunk read in that order, the last two and only they reach the side
channel. -/
theorem side_channel_gets_relay_and_app_chunks (w : World) (k : Nat) (chunks : List Bytes)
    (data : Bytes) :
    sideWrites (readUntilClosed w k (chunks.map ok)).1 =
        chunks.filter (fun d => !w.IsMessage d) ∧
      sideWrites (iteration w k (ok data)).1 = (if w.IsMessage data then [] else [data]) ∧
      (∀ d, (classify w d = Endpoint.turnR ∨ classify w d = Endpoint.dataR) ↔
        w.IsMessage d = false) ∧
      (∀ d, classify w d = Endpoint.stunR ↔ w.IsMessage d = true) ∧
      sideWrites (readUntilClosed w k (chunks.map ok)).1 =
        chunks.filter (fun d => classify w d = Endpoint.turnR || classify w d = Endpoint.dataR) ∧
      sideWrites (iteration w k (ok data)).1 =
        (if classify w data = Endpoint.stunR then [] else [data]) ∧
      writes (readUntilClosed quietWorld 0 ([controlChunk, [0x40, 0, 0, 0], [1, 2, 3, 4]].map ok)).1 =
        [(Endpoint.stunR, controlChunk), (Endpoint.turnR, [0x40, 0, 0, 0]),
          (Endpoint.dataR, [1, 2, 3, 4])] ∧
      sideWrites
          (readUntilClosed quietWorld 0 ([controlChunk, [0x40, 0, 0, 0], [1, 2, 3, 4]].map ok)).1 =
        [[0x40, 0, 0, 0], [1, 2, 3, 4]] := by
  refine ⟨run_ok_sideWrites w k chunks, iteration_ok_sideWrites w k data, ?_, ?_, ?_, ?_,
    by decide, by decide⟩
  · intro d
    rw [classify_eq]
    cases w.IsMessage d <;> cases w.IsChannelData d <;> simp
  · intro d
    rw [classify_eq]
    cases w.IsMessage d <;> cases w.IsChannelData d <;> simp
  · rw [run_ok_sideWrites]
    congr 1
    funext d
    rw [classify_eq]
    cases w.IsMessage d <;> cases w.IsChannelData d <;> simp
  · rw [iteration_ok_sideWrites, classify_eq]
    cases w.IsMessage data <;> cases w.IsChannelData data <;> simp

/-- Witness of C5: a FramedRelay chunk, a Control chunk and an Application
chunk, with a Control predicate that looks at the cookie only: the first and
the last reach the side channel, in that order. -/
theorem side_channel_gets_relay_and_app_chunks_witness :
    sideWrites
        (readUntilClosed cookieWorld 0 ([[0x40, 0, 0, 0], ambiguousChunk, [1, 2, 3, 4]].map ok)).1 =
      [[0x40, 0, 0, 0], [1, 2, 3, 4]] :=
  (side_channel_gets_relay_and_app_chunks cookieWorld 0
    [[0x40, 0, 0, 0], ambiguousChunk, [1, 2, 3, 4]] []).1.trans (by decide)

/-- C6: the switch asks `stun.IsMessage` first, `turn.IsChannelData` second,
and falls back to `dataR`.  A chunk that satisfies both predicates is routed
as Control: it is written to `stunR` only, and not to the side channel, although
the same chunk would go to `turnR` were the Control check to reject it. -/
theorem control_checked_before_framed_relay (w : World) (k : Nat) (data : Bytes)
    (h1 : w.IsMessage data = true) (h2 : w.IsChannelData data = true) :
    (∀ d, classify w d =
        if w.IsMessage d then Endpoint.stunR
        else if w.IsChannelData d then Endpoint.turnR else Endpoint.dataR) ∧
      classify w data = Endpoint.stunR ∧
      writes (iteration w k (ok data)).1 = [(Endpoint.stunR, data)] ∧
      sideWrites (iteration w k (ok data)).1 = [] ∧
      classify (w.withPredicates (fun _ => false) w.IsChannelData) data = Endpoint.turnR := by
  refine ⟨classify_eq w, ?_, ?_, ?_, ?_⟩
  · rw [classify_eq, h1]; rfl
  · rw [iteration_ok_writes, classify_eq, h1]; rfl
  · rw [iteration_ok_sideWrites, h1]; rfl
  · rw [classify_eq]
    simp [World.withPredicates, h2]

/-- Witness of C6: a chunk with the magic cookie that begins like a channel
data frame. -/
theorem control_checked_before_framed_relay_witness :
    cookieWorld.IsMessage ambiguousChunk = true ∧
      cookieWorld.IsChannelData ambiguousChunk = true ∧
      writes (iteration cookieWorld 0 (ok ambiguousChunk)).1 =
        [(Endpoint.stunR, ambiguousChunk)] ∧
      sideWrites (iteration cookieWorld 0 (ok ambiguousChunk)).1 = [] :=
  ⟨by decide, by decide,
    (control_checked_before_framed_relay cookieWorld 0 ambiguousChunk
      (by decide) (by decide)).2.2.1,
    (control_checked_before_framed_relay cookieWorld 0 ambiguousChunk
      (by decide) (by decide)).2.2.2.1⟩

/-- C7: classification is total: on every chunk the classifier of the
specification returns a kind, no header read falling outside the chunk, and
the switch selects the endpoint of that kind.  A chunk of fewer than 4 bytes,
the empty one included, is Application: it is written to the side channel and
to `dataR`. -/
theorem classify_total_short_is_application
    (we : Nat → Endpoint → Bytes → Option GoError) (ce : Endpoint → Option GoError) (k : Nat)
    (b : Bytes) (h : b.length < 4) :
    (∀ c : Bytes, ∃ kind, Classify c = some kind ∧
        classify (specWorld we ce) c = kind.endpoint) ∧
      Classify b = some Kind.Application ∧
      writes (iteration (specWorld we ce) k (ok b)).1 = [(Endpoint.dataR, b)] ∧
      sideWrites (iteration (specWorld we ce) k (ok b)).1 = [b] := by
  have hc := isControl_short b (by omega)
  have hf := isFramedRelay_short b h
  refine ⟨fun c => Classify_spec c we ce, ?_, ?_, ?_⟩
  · simp [Classify, hc, hf]
  · rw [iteration_ok_writes, classify_eq]
    simp [specWorld, hc, hf]
  · rw [iteration_ok_sideWrites]
    simp [specWorld, hc]

/-- Witness of C7: the empty chunk of a zero-byte successful read. -/
theorem classify_total_short_is_application_witness :
    ([] : Bytes).length < 4 ∧
      Classify [] = some Kind.Application ∧
      writes (iteration quietWorld 0 (ok [])).1 = [(Endpoint.dataR, [])] ∧
      sideWrites (iteration quietWorld 0 (ok [])).1 = [[]] :=
  ⟨by decide,
    (classify_total_short_is_application (fun _ _ _ => none) (fun _ => none) 0 []
      (by decide)).2⟩

/-- C8: whatever the transport reads return and whichever endpoint writes
fail, when `Close` succeeds on the three endpoints `readUntilClosed` logs
nothing at Error level: every entry is at Debug, Info or Warn.  Routing the
chunk `1,2,3,4` to the Application endpoint logs no Error entry. -/
theorem no_error_level_entry (w : World) (k : Nat) (rs : List ReadResult)
    (hc : ∀ c, w.closeErr c = none) :
    logsAt Level.Error (readUntilClosed w k rs).1 = [] ∧
      (∀ l ∈ logs (readUntilClosed w k rs).1,
        l.level = Level.Debug ∨ l.level = Level.Info ∨ l.level = Level.Warn) ∧
      writes (readUntilClosed quietWorld 0 [ok [1, 2, 3, 4]]).1 =
        [(Endpoint.dataR, [1, 2, 3, 4])] ∧
      logsAt Level.Error (readUntilClosed quietWorld 0 [ok [1, 2, 3, 4]]).1 = [] := by
  have h := run_logsAt_error w k rs hc
  refine ⟨h, ?_, by decide, by decide⟩
  intro l hl
  have hne : l.level ≠ Level.Error := by
    intro he
    have hm : l ∈ logsAt Level.Error (readUntilClosed w k rs).1 := by
      simp [logsAt, hl, he]
    rw [h] at hm
    exact List.not_mem_nil _ hm
  cases hlv : l.level <;> simp_all

/-- Witness of C8: two routed chunks, a failing write to `dataR`, then a read
error that closes the three endpoints. -/
theorem no_error_level_entry_witness :
    (∀ c, dataClosedWorld.closeErr c = none) ∧
      logsAt Level.Error
        (readUntilClosed dataClosedWorld 0
          [ok [1, 2, 3, 4], ok [0x40, 0, 0, 0], ⟨[], some GoError.EOF⟩]).1 = [] :=
  ⟨fun _ => rfl,
    (no_error_level_entry dataClosedWorld 0
      [ok [1, 2, 3, 4], ok [0x40, 0, 0, 0], ⟨[], some GoError.EOF⟩] (fun _ => rfl)).1⟩

/-- C9: `closeLogged` logs exactly one Error entry, with the given message and
the error, when `Close` fails, and nothing when it succeeds.  `discardLogged`
returns once the reader reports an error, having logged exactly one Error
entry when that error is not end-of-stream and nothing when it is.  A closer
and a reader that return `io.ErrUnexpectedEOF` each yield a logged error. -/
theorem logged_helpers_report_failure (msg : String) (c : Endpoint) (e : GoError)
    (pre : List Bytes) (d : Bytes) (rest : List ReadResult) :
    logs (closeLogged msg ⟨c, some e⟩) = [⟨Level.Error, msg, none, some e⟩] ∧
      logs (closeLogged msg ⟨c, none⟩) = [] ∧
      closes (closeLogged msg ⟨c, some e⟩) = [c] ∧
      discardLogged msg (pre.map ok ++ ⟨d, some e⟩ :: rest) =
        some (if e = GoError.EOF then []
          else [Event.log ⟨Level.Error, msg, none, some e⟩]) ∧
      1 ≤ (logsAt Level.Error
        (closeLogged "message" ⟨c, some GoError.ErrUnexpectedEOF⟩)).length ∧
      (discardLogged "message" [⟨[], some GoError.ErrUnexpectedEOF⟩]).map
        (fun t => (logsAt Level.Error t).length) = some 1 := by
  refine ⟨by simp [closeLogged, logs], by simp [closeLogged, logs],
    by simp [closeLogged, closes], ?_, by simp [closeLogged, logsAt, logs], by decide⟩
  have hcopy : ioCopyDiscard (pre.map ok ++ ⟨d, some e⟩ :: rest) =
      some ((pre.map List.length).sum + d.length,
        if e = GoError.EOF then none else some e) := by
    induction pre with
    | nil => simp [ioCopyDiscard]
    | cons x xs ih =>
      rw [List.map_cons, List.cons_append, ioCopyDiscard_ok_cons, ih]
      simp [Nat.add_assoc]
  unfold discardLogged
  rw [hcopy]
  by_cases he : e = GoError.EOF <;> simp [he]

/-- C10: a transport read that returns bytes together with an error ends the
loop without looking at the bytes: the last iteration makes no endpoint write
and no side-channel write and does not depend on the library predicates, so
the writes of the whole run are those of the successful reads before it. -/
theorem failed_read_bytes_are_not_routed (w : World) (k : Nat) (pre : List Bytes) (d : Bytes)
    (e : GoError) (rest : List ReadResult) (p q : Bytes → Bool) :
    writes (readUntilClosed w k (pre.map ok ++ ⟨d, some e⟩ :: rest)).1 =
        pre.map (fun c => (classify w c, c)) ∧
      sideWrites (readUntilClosed w k (pre.map ok ++ ⟨d, some e⟩ :: rest)).1 =
        pre.filter (fun c => !w.IsMessage c) ∧
      writes (readUntilClosed w k (pre.map ok ++ ⟨d, some e⟩ :: rest)).1 =
        writes (readUntilClosed w k (pre.map ok)).1 ∧
      sideWrites (readUntilClosed w k (pre.map ok ++ ⟨d, some e⟩ :: rest)).1 =
        sideWrites (readUntilClosed w k (pre.map ok)).1 ∧
      writes (iteration w (k + pre.length) ⟨d, some e⟩).1 = [] ∧
      sideWrites (iteration w (k + pre.length) ⟨d, some e⟩).1 = [] ∧
      iteration (w.withPredicates p q) (k + pre.length) ⟨d, some e⟩ =
        iteration w (k + pre.length) ⟨d, some e⟩ := by
  have hw : writes (iteration w (k + pre.length) ⟨d, some e⟩).1 = [] := by
    rw [iteration_err_fst, writes_append, (close_writes w).1]
    simp [writes]
  have hs : sideWrites (iteration w (k + pre.length) ⟨d, some e⟩).1 = [] := by
    rw [iteration_err_fst, sideWrites_append, (close_writes w).2.1]
    simp [sideWrites]
  have hrun : readUntilClosed w k (pre.map ok ++ ⟨d, some e⟩ :: rest) =
      ((readUntilClosed w k (pre.map ok)).1 ++ (iteration w (k + pre.length) ⟨d, some e⟩).1,
        State.Closed) := by
    rw [readUntilClosed_ok_append, readUntilClosed_err_cons]
  refine ⟨?_, ?_, ?_, ?_, hw, hs, rfl⟩
  · rw [hrun, writes_append, hw, List.append_nil, run_ok_writes]
  · rw [hrun, sideWrites_append, hs, List.append_nil, run_ok_sideWrites]
  · rw [hrun, writes_append, hw, List.append_nil]
  · rw [hrun, sideWrites_append, hs, List.append_nil]

end Turnc
